import Mathlib

/-!
# Verification of the LGTM client wrapper (`lgtm.py`)

Shallow embedding of the repository's single source file `lgtm.py`:
the resilient request executor (`LGTMSite._resilient_request`), the
response normalizer (`LGTMDataFilters.org_to_ids`,
`LGTMDataFilters.extract_project_under_org`), the HTTP request/response
handling (`_make_lgtm_get`, `get_my_projects`, `_make_lgtm_post`), the
form-data construction of `load_into_project_list`, and the bulk rebuild
operation (`force_rebuild_all_proto_projects` / `force_rebuild_project`).

Python exceptions are modelled by an explicit `Exn` type and fallible code
returns `Except Exn _`.  The network is modelled by a transport oracle
`Nat → Except Exn HttpResponse` giving the outcome of the n-th attempt;
functions that perform requests additionally return the number of attempts
made, so that retry behaviour is observable.
-/

/-- Test `isPrefixChars pat s` : `pat` is a prefix of the character list `s`.
Helper for Python's substring test `pat in s`. -/
def isPrefixChars : List Char → List Char → Bool
  | [], _ => true
  | _ :: _, [] => false
  | c :: cs, d :: ds => c = d && isPrefixChars cs ds

/-- Test `substrAt pat s` : `pat` occurs as a contiguous run somewhere in `s`. -/
def substrAt (pat : List Char) : List Char → Bool
  | [] => isPrefixChars pat []
  | d :: ds => isPrefixChars pat (d :: ds) || substrAt pat ds

/-- Python's `pat in s` substring containment on strings. -/
def strContains (s pat : String) : Bool :=
  substrAt pat.data s.data

/-- Helper for `splitSlash`: accumulates the current segment (reversed). -/
def splitCharAux : List Char → List Char → List String
  | [], acc => [String.mk acc.reverse]
  | c :: cs, acc =>
    if c = '/' then String.mk acc.reverse :: splitCharAux cs []
    else splitCharAux cs (c :: acc)

/-- Python's `s.split('/')`: split a string on the `/` character.  Like the
Python original it always returns at least one segment. -/
def splitSlash (s : String) : List String :=
  splitCharAux s.data []

/-- Minimal JSON values as returned by `response.json()`. -/
inductive Json where
  | null : Json
  | bool : Bool → Json
  | str : String → Json
  | arr : List Json → Json
  | obj : List (String × Json) → Json

/-- Field lookup in a JSON object's field list (first match). -/
def jsonFieldLookup : List (String × Json) → String → Option Json
  | [], _ => none
  | (k, v) :: rest, key => if k = key then some v else jsonFieldLookup rest key

/-- Exceptions of the Python program.  `requestFailure…` constructors all
model the single Python class `LGTMRequestException`, one constructor per
raise site so that the carried diagnostic payload is visible:
* `requestFailureSSL` — `raise LGTMRequestException('SSL Error') from e`
  in `_resilient_request`, wrapping the original cause;
* `requestFailureParse` — `'Failed to parse JSON. Response was: ...'`
  in `_make_lgtm_post`, carrying the full response text;
* `requestFailureGet` / `requestFailurePost` — `'LGTM GET/POST request
  failed with response: ...'`, carrying the full parsed response body. -/
inductive Exn where
  | sslError : Exn
  | keyError : Exn
  | indexError : Exn
  | valueError : Exn
  | requestFailureSSL : Exn → Exn
  | requestFailureParse : String → Exn
  | requestFailureGet : Json → Exn
  | requestFailurePost : Json → Exn

/-- Whether an exception is (an instance of) `LGTMRequestException`. -/
def Exn.isRequestFailure : Exn → Bool
  | .requestFailureSSL _ => true
  | .requestFailureParse _ => true
  | .requestFailureGet _ => true
  | .requestFailurePost _ => true
  | _ => false

/-- Python's `data['key']`: `KeyError` when absent, `TypeError`-like failure
is not modelled since every call site receives an object. -/
def Json.getField : Json → String → Except Exn Json
  | Json.obj fields, key =>
    match jsonFieldLookup fields key with
    | some v => Except.ok v
    | none => Except.error Exn.keyError
  | _, _ => Except.error Exn.keyError

/-- Python's `'key' in data` on a JSON object. -/
def Json.hasField : Json → String → Bool
  | Json.obj fields, key => (jsonFieldLookup fields key).isSome
  | _, _ => false

/-- The `SimpleProject` dataclass of `lgtm.py`. -/
structure SimpleProject where
  display_name : String
  key : String
  is_protoproject : Bool
deriving DecidableEq, Repr

/-- Embedding of `LGTMSite._resilient_request`.  The thunk is modelled as an oracle
giving the outcome of each attempt (the n-th invocation of
`request_method` during a run started at `retry_count = 0` happens at
recursion level `n`).  Returns the Python result together with the number
of attempts (thunk invocations) made by this run, so that the retry count
is observable.

```python
try:
    return request_method()
except SSLError as e:
    if retry_count < 4:
        return LGTMSite._resilient_request(request_method, retry_count + 1)
    raise LGTMRequestException(f'SSL Error') from e
```
-/
def resilientRequest {α : Type} (thunk : Nat → Except Exn α) (retry_count : Nat) :
    Except Exn α × Nat :=
  match thunk retry_count with
  | Except.ok r => (Except.ok r, 1)
  | Except.error Exn.sslError =>
    if h : retry_count < 4 then
      let rest := resilientRequest thunk (retry_count + 1)
      (rest.1, rest.2 + 1)
    else (Except.error (Exn.requestFailureSSL Exn.sslError), 1)
  | Except.error e => (Except.error e, 1)
termination_by 4 - retry_count
decreasing_by omega

/-- An HTTP response: its raw text and, when the body parses as JSON, the
parsed value (`none` models `r.json()` raising `ValueError`). -/
structure HttpResponse where
  text : String
  jsonResult : Option Json

/-- Embedding of `LGTMSite._make_lgtm_get`: run the request through the resilient
executor, then `return r.json()` — a parse failure raises `ValueError`,
uncaught here.  Also returns the number of attempts made. -/
def makeLgtmGet (transport : Nat → Except Exn HttpResponse) :
    Except Exn Json × Nat :=
  match resilientRequest transport 0 with
  | (Except.error e, n) => (Except.error e, n)
  | (Except.ok r, n) =>
    match r.jsonResult with
    | some j => (Except.ok j, n)
    | none => (Except.error Exn.valueError, n)

/-- Embedding of `LGTMSite.get_my_projects`: GET, then check `data['status'] ==
'success'` and return `data['data']`, otherwise raise
`LGTMRequestException('LGTM GET request failed with response: %s' % str(data))`. -/
def getMyProjects (transport : Nat → Except Exn HttpResponse) :
    Except Exn Json × Nat :=
  match makeLgtmGet transport with
  | (Except.error e, n) => (Except.error e, n)
  | (Except.ok data, n) =>
    match data.getField "status" with
    | Except.error e => (Except.error e, n)
    | Except.ok s =>
      match s with
      | Json.str t =>
        if t = "success" then
          match data.getField "data" with
          | Except.error e => (Except.error e, n)
          | Except.ok d => (Except.ok d, n)
        else (Except.error (Exn.requestFailureGet data), n)
      | _ => (Except.error (Exn.requestFailureGet data), n)

/-- Embedding of `LGTMSite._make_lgtm_post` (response handling; the url and form body do
not influence control flow and are carried by the transport oracle):

```python
r = LGTMSite._resilient_request(lambda: requests.post(...))
try:
    data_returned = r.json()
except ValueError as e:
    raise LGTMRequestException(f'Failed to parse JSON. Response was: {response_text}') from e
if data_returned['status'] == 'success':
    return data_returned['data'] if 'data' in data_returned else {}
else:
    raise LGTMRequestException('LGTM POST request failed with response: %s' % ...)
```
-/
def makeLgtmPost (transport : Nat → Except Exn HttpResponse) :
    Except Exn Json × Nat :=
  match resilientRequest transport 0 with
  | (Except.error e, n) => (Except.error e, n)
  | (Except.ok r, n) =>
    match r.jsonResult with
    | none => (Except.error (Exn.requestFailureParse r.text), n)
    | some data_returned =>
      match data_returned.getField "status" with
      | Except.error e => (Except.error e, n)
      | Except.ok s =>
        match s with
        | Json.str t =>
          if t = "success" then
            if data_returned.hasField "data" then
              match data_returned.getField "data" with
              | Except.error e => (Except.error e, n)
              | Except.ok d => (Except.ok d, n)
            else (Except.ok (Json.obj []), n)
          else (Except.error (Exn.requestFailurePost data_returned), n)
        | _ => (Except.error (Exn.requestFailurePost data_returned), n)

/-- Python's `', '.join(parts)`: empty for no parts, otherwise the parts
separated by a comma and a space. -/
def joinCommaSpace : List String → String
  | [] => ""
  | [x] => x
  | x :: y :: rest => x ++ ", " ++ joinCommaSpace (y :: rest)

/-- Embedding of `', '.join([('"' + str(elem) + '"') for elem in lgtm_project_ids])`. -/
def listSerialized (lgtm_project_ids : List String) : String :=
  joinCommaSpace (lgtm_project_ids.map (fun elem => "\"" ++ elem ++ "\""))

/-- The form data built by `LGTMSite.load_into_project_list` (the request
itself then goes through `_make_lgtm_post`).  Form values as strings. -/
def loadIntoProjectListData (into_project : Int) (lgtm_project_ids : List String) :
    List (String × String) :=
  [("projectSelectionId", toString into_project),
   ("addedProjects", "[" ++ listSerialized lgtm_project_ids ++ "]"),
   ("removedProjects", "[]")]

/-- The nested object of a protoproject-shaped raw record
(`project['protoproject']`): clone URL, display name and key. -/
structure ProtoData where
  cloneUrl : String
  displayName : String
  key : String
deriving DecidableEq, Repr

/-- One element of the nested list of a realProject-shaped raw record
(`project['realProject'][i]`): slug, display name, key, provider tag. -/
structure RealData where
  slug : String
  displayName : String
  key : String
  repoProvider : String
deriving DecidableEq, Repr

/-- A raw project record from `get_my_projects`.  Key presence
(`'protoproject' in project`, `'realProject' in project`) is modelled by
the `Option` fields. -/
structure RawProject where
  protoproject : Option ProtoData
  realProject : Option (List RealData)
deriving DecidableEq, Repr

/-- Append a project under its organization in the insertion-ordered
mapping (Python dict of org to list): if the org is present, append to its
sequence in place; otherwise add a new `(org, [sp])` entry at the end.
Embeds lines 270-280 of `org_to_ids`. -/
def appendToOrg : List (String × List SimpleProject) → String → SimpleProject →
    List (String × List SimpleProject)
  | [], org, sp => [(org, [sp])]
  | (o, ps) :: rest, org, sp =>
    if o = org then (o, ps ++ [sp]) :: rest
    else (o, ps) :: appendToOrg rest org sp

/-- The loop of `LGTMDataFilters.org_to_ids` with the accumulated mapping
threaded explicitly.  Mirrors the source:

```python
if 'protoproject' in project:
    the_project = project['protoproject']
    if 'https://github.com/' not in the_project['cloneUrl']:
        continue
    display_name = the_project['displayName']
    org = display_name.split('/')[0]
    key = the_project['key']
    is_protoproject = True
elif 'realProject' in project:
    the_project = project['realProject'][0]
    if the_project['repoProvider'] != 'github_apps':
        continue
    org = str(the_project['slug']).split('/')[1]
    ...
else:
    raise KeyError(...)
```
-/
def orgToIdsGo : List RawProject → List (String × List SimpleProject) →
    Except Exn (List (String × List SimpleProject))
  | [], acc => Except.ok acc
  | project :: rest, acc =>
    match project.protoproject with
    | some the_project =>
      if strContains the_project.cloneUrl "https://github.com/" then
        match splitSlash the_project.displayName with
        | [] => Except.error Exn.indexError
        | org :: _ =>
          orgToIdsGo rest
            (appendToOrg acc org ⟨the_project.displayName, the_project.key, true⟩)
      else orgToIdsGo rest acc
    | none =>
      match project.realProject with
      | some lst =>
        match lst with
        | [] => Except.error Exn.indexError
        | the_project :: _ =>
          if the_project.repoProvider = "github_apps" then
            match splitSlash the_project.slug with
            | _ :: org :: _ =>
              orgToIdsGo rest
                (appendToOrg acc org ⟨the_project.displayName, the_project.key, false⟩)
            | _ => Except.error Exn.indexError
          else orgToIdsGo rest acc
      | none => Except.error Exn.keyError

/-- Embedding of `LGTMDataFilters.org_to_ids`: normalize the raw project records into an
insertion-ordered mapping from organization to normalized projects. -/
def orgToIds (projects : List RawProject) :
    Except Exn (List (String × List SimpleProject)) :=
  orgToIdsGo projects []

/-- Membership lookup in the insertion-ordered mapping (Python's
`org in projects_sorted` / `projects_sorted[org]`). -/
def lookupOrg : List (String × List SimpleProject) → String →
    Option (List SimpleProject)
  | [], _ => none
  | (o, ps) :: rest, org => if o = org then some ps else lookupOrg rest org

/-- Embedding of `LGTMDataFilters.extract_project_under_org`: the sequence for `org`, or
`[]` (after printing a notice) when the org is absent. -/
def extractProjectUnderOrg (org : String)
    (projects_sorted : List (String × List SimpleProject)) : List SimpleProject :=
  match lookupOrg projects_sorted org with
  | none => []
  | some ps => ps

/-- Embedding of `LGTMSite.force_rebuild_project`: POST a rebuild request for one
project; a raised `LGTMRequestException` is caught and only a warning is
printed.  The outcome of the project's `_make_lgtm_post` call is supplied
by an oracle; returns `true` when a warning was printed. -/
def forceRebuildProject (outcome : Except Exn Unit) : Except Exn Bool :=
  match outcome with
  | Except.ok _ => Except.ok false
  | Except.error e =>
    if e.isRequestFailure then Except.ok true else Except.error e

/-- Inner loop of `force_rebuild_all_proto_projects` over one
organization's projects: skip non-protoprojects, rebuild the rest.
Returns the projects for which a rebuild was attempted and those for which
the failure warning was printed, in order. -/
def rebuildProjects (outcome : SimpleProject → Except Exn Unit) :
    List SimpleProject → Except Exn (List SimpleProject × List SimpleProject)
  | [] => Except.ok ([], [])
  | project :: rest =>
    if project.is_protoproject then
      match forceRebuildProject (outcome project) with
      | Except.error e => Except.error e
      | Except.ok warned =>
        match rebuildProjects outcome rest with
        | Except.error e => Except.error e
        | Except.ok (att, wrn) =>
          Except.ok (project :: att, if warned then project :: wrn else wrn)
    else rebuildProjects outcome rest

/-- Embedding of `LGTMSite.force_rebuild_all_proto_projects`, iterating over the
organization mapping produced by `org_to_ids` (the per-project POST
outcome is supplied by an oracle; the 1-second pacing delay has no
observable effect in this model). -/
def forceRebuildAllProtoProjects (outcome : SimpleProject → Except Exn Unit) :
    List (String × List SimpleProject) →
    Except Exn (List SimpleProject × List SimpleProject)
  | [] => Except.ok ([], [])
  | (_, ps) :: rest =>
    match rebuildProjects outcome ps with
    | Except.error e => Except.error e
    | Except.ok (att, wrn) =>
      match forceRebuildAllProtoProjects outcome rest with
      | Except.error e => Except.error e
      | Except.ok (att2, wrn2) => Except.ok (att ++ att2, wrn ++ wrn2)

/-- Embedding of `LGTMSite.add_org_to_project_list_by_list_name`: the body is `pass`.
Modelled as the trace of HTTP requests it issues (url with form data)
paired with its return value (Python `None`). -/
def addOrgToProjectListByListName (org : String) (project_name : String) :
    List (String × List (String × String)) × Option Json :=
  ([], none)

/-- Spec-side description of what a single raw record contributes to the
normalized output (`none` when the record is filtered out):
display name and key are taken from the record, the protoproject flag
marks the protoproject shape, the organization is the first `/`-segment of
the display name for protoprojects and the index-1 `/`-segment of the slug
for realProjects, and records of an unsupported provider are dropped. -/
def specContribution (p : RawProject) : Option (String × SimpleProject) :=
  match p.protoproject with
  | some pd =>
    if strContains pd.cloneUrl "https://github.com/" then
      match splitSlash pd.displayName with
      | org :: _ => some (org, ⟨pd.displayName, pd.key, true⟩)
      | [] => none
    else none
  | none =>
    match p.realProject with
    | some (rd :: _) =>
      if rd.repoProvider = "github_apps" then
        match splitSlash rd.slug with
        | _ :: org :: _ => some (org, ⟨rd.displayName, rd.key, false⟩)
        | _ => none
      else none
    | _ => none

/-- Fold one optional contribution into the accumulated mapping. -/
def foldStep (acc : List (String × List SimpleProject)) :
    Option (String × SimpleProject) → List (String × List SimpleProject)
  | none => acc
  | some (org, sp) => appendToOrg acc org sp

/-- Spec-side stable grouping: append each contribution under its
organization, creating the sequence on first encounter, so organizations
appear in order of first appearance and projects in input order. -/
def specGroup (contribs : List (Option (String × SimpleProject))) :
    List (String × List SimpleProject) :=
  contribs.foldl foldStep []

/-- A raw record that `org_to_ids` processes without raising: it has one of
the two recognized shapes, and a realProject record of the supported
provider has at least two `/`-segments in its slug (and a nonempty nested
list). -/
def recognizedOk (p : RawProject) : Bool :=
  match p.protoproject with
  | some _ => true
  | none =>
    match p.realProject with
    | some (rd :: _) =>
      !(rd.repoProvider = "github_apps") || 2 ≤ (splitSlash rd.slug).length
    | _ => false

/-- The two-record end-to-end input of the spec's section 8. -/
def scenarioInput : List RawProject :=
  [⟨some ⟨"https://github.com/orgA/x", "orgA/x", "p1"⟩, none⟩,
   ⟨none, some [⟨"gh/orgB/y", "orgB/y", "p2", "github_apps"⟩]⟩]

/-- Expected normalization of `scenarioInput`. -/
def scenarioOutput : List (String × List SimpleProject) :=
  [("orgA", [⟨"orgA/x", "p1", true⟩]), ("orgB", [⟨"orgB/y", "p2", false⟩])]

/-- Spec-side serialization of a list-typed form field: a bracketed,
comma-space-separated, double-quoted string list (the brackets are added
by the caller); the empty list contributes nothing between the brackets. -/
def quotedJoin : List String → String
  | [] => ""
  | [x] => "\"" ++ x ++ "\""
  | x :: y :: rest => "\"" ++ x ++ "\"" ++ ", " ++ quotedJoin (y :: rest)

/-- Whether the rebuild of `p` raised (and was downgraded to a warning). -/
def warnedFlag (outcome : SimpleProject → Except Exn Unit) (p : SimpleProject) : Bool :=
  match outcome p with
  | Except.ok _ => false
  | Except.error _ => true

/-- All projects of the grouped mapping, in iteration order, restricted to
protoprojects. -/
def allProtoProjects (orgs : List (String × List SimpleProject)) : List SimpleProject :=
  ((orgs.map Prod.snd).flatten).filter (fun p => p.is_protoproject)

/-! ## Lemmas about the resilient request executor -/

theorem rr_ok {α : Type} (thunk : Nat → Except Exn α) (rc : Nat) (v : α)
    (h : thunk rc = Except.ok v) : resilientRequest thunk rc = (Except.ok v, 1) := by
  rw [resilientRequest, h]

theorem rr_ssl_lt {α : Type} (thunk : Nat → Except Exn α) (rc : Nat)
    (h : thunk rc = Except.error Exn.sslError) (h4 : rc < 4) :
    resilientRequest thunk rc =
      ((resilientRequest thunk (rc + 1)).1, (resilientRequest thunk (rc + 1)).2 + 1) := by
  rw [resilientRequest, h]
  simp [h4]

theorem rr_ssl_ge {α : Type} (thunk : Nat → Except Exn α) (rc : Nat)
    (h : thunk rc = Except.error Exn.sslError) (h4 : ¬ rc < 4) :
    resilientRequest thunk rc = (Except.error (Exn.requestFailureSSL Exn.sslError), 1) := by
  rw [resilientRequest, h]
  simp [h4]

theorem rr_other {α : Type} (thunk : Nat → Except Exn α) (rc : Nat) (e : Exn)
    (h : thunk rc = Except.error e) (he : e ≠ Exn.sslError) :
    resilientRequest thunk rc = (Except.error e, 1) := by
  rw [resilientRequest, h]
  cases e with
  | sslError => exact absurd rfl he
  | keyError => rfl
  | indexError => rfl
  | valueError => rfl
  | requestFailureSSL c => rfl
  | requestFailureParse t => rfl
  | requestFailureGet b => rfl
  | requestFailurePost b => rfl

/-- Attempt-count bound: a run started at `rc` makes at most `4 - rc + 1`
attempts (stated with explicit fuel for the induction). -/
theorem rr_attempts_le {α : Type} (thunk : Nat → Except Exn α) :
    ∀ (n rc : Nat), 4 - rc ≤ n → (resilientRequest thunk rc).2 ≤ n + 1 := by
  intro n
  induction n with
  | zero =>
    intro rc hrc
    cases hq : thunk rc with
    | ok v => rw [rr_ok thunk rc v hq]
    | error e =>
      by_cases he : e = Exn.sslError
      · subst he
        rw [rr_ssl_ge thunk rc hq (by omega)]
      · rw [rr_other thunk rc e hq he]
  | succ n ih =>
    intro rc hrc
    cases hq : thunk rc with
    | ok v =>
      rw [rr_ok thunk rc v hq]
      simp
    | error e =>
      by_cases he : e = Exn.sslError
      · subst he
        by_cases h4 : rc < 4
        · rw [rr_ssl_lt thunk rc hq h4]
          have := ih (rc + 1) (by omega)
          simpa using Nat.succ_le_succ this
        · rw [rr_ssl_ge thunk rc hq h4]
          simp
      · rw [rr_other thunk rc e hq he]
        simp

/-- If every attempt from `rc` through 4 raises the SSL failure, the run
started at `rc = 4 - m` makes `m + 1` attempts and then raises the wrapped
`LGTMRequestException`. -/
theorem rr_all_ssl {α : Type} (thunk : Nat → Except Exn α) :
    ∀ (m rc : Nat), rc + m = 4 →
      (∀ i, rc ≤ i → i ≤ 4 → thunk i = Except.error Exn.sslError) →
      resilientRequest thunk rc =
        (Except.error (Exn.requestFailureSSL Exn.sslError), m + 1) := by
  intro m
  induction m with
  | zero =>
    intro rc hrc hssl
    have h4 : rc = 4 := by omega
    subst h4
    exact rr_ssl_ge thunk 4 (hssl 4 (by omega) (by omega)) (by omega)
  | succ m ih =>
    intro rc hrc hssl
    have hlt : rc < 4 := by omega
    rw [rr_ssl_lt thunk rc (hssl rc (by omega) (by omega)) hlt]
    rw [ih (rc + 1) (by omega) (fun i hi hi4 => hssl i (by omega) hi4)]

/-- If the attempts from `rc` up to (but excluding) `rc + k` raise the SSL
failure and attempt `rc + k` succeeds with `v`, the run started at `rc`
returns `v` after exactly `k + 1` attempts. -/
theorem rr_succeeds_at {α : Type} (thunk : Nat → Except Exn α) (v : α) :
    ∀ (k rc : Nat), rc + k ≤ 4 →
      (∀ i, rc ≤ i → i < rc + k → thunk i = Except.error Exn.sslError) →
      thunk (rc + k) = Except.ok v →
      resilientRequest thunk rc = (Except.ok v, k + 1) := by
  intro k
  induction k with
  | zero =>
    intro rc hrc hssl hok
    exact rr_ok thunk rc v hok
  | succ k ih =>
    intro rc hrc hssl hok
    have hlt : rc < 4 := by omega
    rw [rr_ssl_lt thunk rc (hssl rc (by omega) (by omega)) hlt]
    rw [ih (rc + 1) (by omega) (fun i hi hik => hssl i (by omega) (by omega))
      (by rw [show rc + 1 + k = rc + (k + 1) by omega]; exact hok)]

/-- C1: started at `retry_count = 0` the resilient request executor makes
at most 5 attempts; if the thunk raises the SSL-layer failure on every
attempt, exactly 5 attempts are made and a `RequestFailure`
(`LGTMRequestException`) wrapping the original SSL cause is raised; if the
thunk succeeds on attempt `k + 1 ≤ 5` after SSL failures, that result is
returned after exactly `k + 1` attempts, with no further attempts. -/
theorem resilient_request_retry_cap {α : Type} (thunk : Nat → Except Exn α) :
    (resilientRequest thunk 0).2 ≤ 5
    ∧ ((∀ i, i < 5 → thunk i = Except.error Exn.sslError) →
        resilientRequest thunk 0 =
          (Except.error (Exn.requestFailureSSL Exn.sslError), 5))
    ∧ (∀ (k : Nat) (v : α), k < 5 →
        (∀ i, i < k → thunk i = Except.error Exn.sslError) →
        thunk k = Except.ok v →
        resilientRequest thunk 0 = (Except.ok v, k + 1)) := by
  refine ⟨?_, ?_, ?_⟩
  · exact rr_attempts_le thunk 4 0 (by omega)
  · intro h
    exact rr_all_ssl thunk 4 0 (by omega) (fun i _ hi4 => h i (by omega))
  · intro k v hk hssl hok
    exact rr_succeeds_at thunk v k 0 (by omega)
      (fun i _ hik => hssl i (by omega)) (by simpa using hok)

/-- Witness for C1 at a thunk that always raises the SSL failure. -/
theorem resilient_request_retry_cap_witness :
    resilientRequest (fun _ => (Except.error Exn.sslError : Except Exn Unit)) 0 =
      (Except.error (Exn.requestFailureSSL Exn.sslError), 5) :=
  (resilient_request_retry_cap (fun _ => Except.error Exn.sslError)).2.1
    (fun _ _ => rfl)

/-- C5: an exception other than the SSL-layer failure raised by the thunk
propagates immediately and unchanged, after a single attempt, for every
starting retry count. -/
theorem resilient_request_propagates_other {α : Type}
    (thunk : Nat → Except Exn α) (rc : Nat) (e : Exn)
    (he : e ≠ Exn.sslError) (h : thunk rc = Except.error e) :
    resilientRequest thunk rc = (Except.error e, 1) :=
  rr_other thunk rc e h he

/-- Witness for C5 at a thunk raising `KeyError`. -/
theorem resilient_request_propagates_other_witness :
    resilientRequest (fun _ => (Except.error Exn.keyError : Except Exn Unit)) 0 =
      (Except.error Exn.keyError, 1) :=
  resilient_request_propagates_other (fun _ => Except.error Exn.keyError) 0
    Exn.keyError (by simp) rfl

/-! ## Lemmas about the response normalizer -/

/-- Splitting always yields at least one segment (like Python's `split`). -/
theorem splitCharAux_cons :
    ∀ (cs acc : List Char), ∃ h t, splitCharAux cs acc = h :: t := by
  intro cs
  induction cs with
  | nil => intro acc; exact ⟨_, _, rfl⟩
  | cons c cs ih =>
    intro acc
    by_cases hc : c = '/'
    · refine ⟨String.mk acc.reverse, splitCharAux cs [], ?_⟩
      simp [splitCharAux, hc]
    · simpa [splitCharAux, hc] using ih (c :: acc)

theorem splitSlash_cons (s : String) : ∃ h t, splitSlash s = h :: t :=
  splitCharAux_cons s.data []

/-- Processing one recognized record is exactly folding its spec-side
contribution into the accumulator. -/
theorem orgToIdsGo_step (p : RawProject) (rest : List RawProject)
    (acc : List (String × List SimpleProject)) (h : recognizedOk p = true) :
    orgToIdsGo (p :: rest) acc = orgToIdsGo rest (foldStep acc (specContribution p)) := by
  cases hp : p.protoproject with
  | some pd =>
    obtain ⟨org, tl, hsplit⟩ := splitSlash_cons pd.displayName
    by_cases hurl : strContains pd.cloneUrl "https://github.com/"
    · simp [orgToIdsGo, specContribution, foldStep, hp, hurl, hsplit]
    · simp [orgToIdsGo, specContribution, foldStep, hp, hurl]
  | none =>
    cases hr : p.realProject with
    | none => simp [recognizedOk, hp, hr] at h
    | some lst =>
      cases lst with
      | nil => simp [recognizedOk, hp, hr] at h
      | cons rd tl =>
        by_cases hprov : rd.repoProvider = "github_apps"
        · have hlen : 2 ≤ (splitSlash rd.slug).length := by
            simp [recognizedOk, hp, hr, hprov] at h
            exact h
          rcases hsplit : splitSlash rd.slug with _ | ⟨a, _ | ⟨b, t⟩⟩
          · simp [hsplit] at hlen
          · simp [hsplit] at hlen
          · simp [orgToIdsGo, specContribution, foldStep, hp, hr, hprov, hsplit]
        · simp [orgToIdsGo, specContribution, foldStep, hp, hr, hprov]

/-- Processing a recognized leading batch folds its contributions into the
accumulator and continues with the tail. -/
theorem orgToIdsGo_append :
    ∀ (pre : List RawProject), (∀ q ∈ pre, recognizedOk q = true) →
    ∀ (tail : List RawProject) (acc : List (String × List SimpleProject)),
      orgToIdsGo (pre ++ tail) acc =
        orgToIdsGo tail ((pre.map specContribution).foldl foldStep acc) := by
  intro pre
  induction pre with
  | nil => intro _ tail acc; rfl
  | cons q pre ih =>
    intro hpre tail acc
    rw [List.cons_append, orgToIdsGo_step q _ acc (hpre q (by simp))]
    simp only [List.map_cons, List.foldl_cons]
    exact ih (fun r hr => hpre r (by simp [hr])) tail (foldStep acc (specContribution q))

/-- C2: on recognized records, `org_to_ids` produces exactly the stable
grouping of the per-record contributions — display name and key are taken
from the record, the protoproject flag marks the protoproject shape, each
kept record is appended under its organization, organizations appear in
order of first appearance and projects in input order, with no
deduplication — and the two-record section-8 scenario yields exactly
`orgA` then `orgB` with the stated normalized projects. -/
theorem org_to_ids_normalizes (projects : List RawProject)
    (h : ∀ p ∈ projects, recognizedOk p = true) :
    orgToIds projects = Except.ok (specGroup (projects.map specContribution))
    ∧ orgToIds scenarioInput = Except.ok scenarioOutput := by
  constructor
  · have := orgToIdsGo_append projects h [] []
    rw [List.append_nil] at this
    exact this
  · rfl

/-- Witness for C2 at the section-8 scenario input. -/
theorem org_to_ids_normalizes_witness :
    orgToIds scenarioInput = Except.ok (specGroup (scenarioInput.map specContribution)) :=
  (org_to_ids_normalizes scenarioInput (by decide)).1

/-- C3: a record with neither a `protoproject` nor a `realProject` key
makes the whole batch fail with `KeyError` as soon as it is reached,
whatever records come before (as long as they themselves are processed)
or after it; no partial mapping is returned. -/
theorem org_to_ids_unrecognized_shape (pre : List RawProject) (p : RawProject)
    (rest : List RawProject) (hpre : ∀ q ∈ pre, recognizedOk q = true)
    (h1 : p.protoproject = none) (h2 : p.realProject = none) :
    orgToIds (pre ++ p :: rest) = Except.error Exn.keyError := by
  unfold orgToIds
  rw [orgToIdsGo_append pre hpre (p :: rest) []]
  simp [orgToIdsGo, h1, h2]

/-- Witness for C3: a lone unrecognized record already processed records
before it and records after it. -/
theorem org_to_ids_unrecognized_shape_witness :
    orgToIds (scenarioInput ++ (⟨none, none⟩ : RawProject) :: scenarioInput) =
      Except.error Exn.keyError :=
  org_to_ids_unrecognized_shape scenarioInput ⟨none, none⟩ scenarioInput
    (by decide) rfl rfl

/-- C4: a protoproject record whose clone URL lacks the supported-host
substring, and a realProject record whose provider tag differs from the
supported-provider sentinel, are silently omitted: normalization of the
list with the record equals normalization of the list without it, raising
no error for that record. -/
theorem org_to_ids_skips_unsupported (pre rest : List RawProject) (p : RawProject)
    (hpre : ∀ q ∈ pre, recognizedOk q = true) :
    (∀ pd, p.protoproject = some pd →
      strContains pd.cloneUrl "https://github.com/" = false →
      orgToIds (pre ++ p :: rest) = orgToIds (pre ++ rest))
    ∧ (∀ rd tl, p.protoproject = none → p.realProject = some (rd :: tl) →
      rd.repoProvider ≠ "github_apps" →
      orgToIds (pre ++ p :: rest) = orgToIds (pre ++ rest)) := by
  constructor
  · intro pd hpd hurl
    unfold orgToIds
    rw [orgToIdsGo_append pre hpre (p :: rest) [],
      orgToIdsGo_append pre hpre rest []]
    simp [orgToIdsGo, hpd, hurl]
  · intro rd tl h1 h2 hprov
    unfold orgToIds
    rw [orgToIdsGo_append pre hpre (p :: rest) [],
      orgToIdsGo_append pre hpre rest []]
    simp [orgToIdsGo, h1, h2, hprov]

/-- Witness for C4: a BitBucket protoproject is dropped from the
section-8 scenario without an error. -/
theorem org_to_ids_skips_unsupported_witness :
    orgToIds (scenarioInput ++
        (⟨some ⟨"https://bitbucket.org/orgC/z", "orgC/z", "p3"⟩, none⟩ : RawProject) ::
        scenarioInput) =
      orgToIds (scenarioInput ++ scenarioInput) :=
  (org_to_ids_skips_unsupported scenarioInput scenarioInput
      ⟨some ⟨"https://bitbucket.org/orgC/z", "orgC/z", "p3"⟩, none⟩ (by decide)).1
    ⟨"https://bitbucket.org/orgC/z", "orgC/z", "p3"⟩ rfl (by decide)

/-- C9: `extract_project_under_org` returns the empty sequence, without an
error, when the organization is absent from the grouping, and returns the
organization's sequence unchanged when it is present. -/
theorem extract_project_under_org_spec (org : String)
    (projects_sorted : List (String × List SimpleProject)) :
    (lookupOrg projects_sorted org = none →
      extractProjectUnderOrg org projects_sorted = [])
    ∧ (∀ ps, lookupOrg projects_sorted org = some ps →
      extractProjectUnderOrg org projects_sorted = ps) := by
  constructor
  · intro h
    simp [extractProjectUnderOrg, h]
  · intro ps h
    simp [extractProjectUnderOrg, h]

/-- Witness for C9: an absent organization yields the empty sequence. -/
theorem extract_project_under_org_spec_witness :
    extractProjectUnderOrg "orgZ" scenarioOutput = [] :=
  (extract_project_under_org_spec "orgZ" scenarioOutput).1 rfl

/-! ## Response error surfacing (GET and POST paths) -/

/-- C6 counterexample: on the GET path a response body that does not parse
as JSON surfaces Python's bare `ValueError` from `r.json()` — which is not
an `LGTMRequestException` and carries no response body — because
`_make_lgtm_get` has no `try` around `r.json()`; the claim's
request-failure error is raised for this case only on the POST path. -/
theorem get_path_parse_error_counterexample :
    (getMyProjects (fun _ => Except.ok ⟨"not json", none⟩)).1 =
      Except.error Exn.valueError
    ∧ Exn.valueError.isRequestFailure = false := by
  constructor
  · have h := rr_ok (fun _ => Except.ok (⟨"not json", none⟩ : HttpResponse)) 0
      ⟨"not json", none⟩ rfl
    simp [getMyProjects, makeLgtmGet, h]
  · rfl

/-- C6 (amended): a parsed response whose status field is not `"success"`
surfaces an `LGTMRequestException` carrying the full parsed body, after a
single attempt (never retried), on both the GET and the POST path; a
response body that does not parse as JSON surfaces an
`LGTMRequestException` carrying the full response text on the POST path,
while the GET path propagates the bare `ValueError` of `r.json()`. -/
theorem request_failure_surfacing (transport : Nat → Except Exn HttpResponse) :
    (∀ r body st, transport 0 = Except.ok r → r.jsonResult = some body →
      body.getField "status" = Except.ok (Json.str st) → st ≠ "success" →
      makeLgtmPost transport = (Except.error (Exn.requestFailurePost body), 1)
      ∧ getMyProjects transport = (Except.error (Exn.requestFailureGet body), 1))
    ∧ (∀ r, transport 0 = Except.ok r → r.jsonResult = none →
      makeLgtmPost transport = (Except.error (Exn.requestFailureParse r.text), 1)
      ∧ getMyProjects transport = (Except.error Exn.valueError, 1)) := by
  constructor
  · intro r body st htr hjson hstatus hst
    have h := rr_ok transport 0 r htr
    constructor
    · simp [makeLgtmPost, h, hjson, hstatus, hst]
    · simp [getMyProjects, makeLgtmGet, h, hjson, hstatus, hst]
  · intro r htr hjson
    have h := rr_ok transport 0 r htr
    constructor
    · simp [makeLgtmPost, h, hjson]
    · simp [getMyProjects, makeLgtmGet, h, hjson]

/-- Witness for C6 at a response with status `"error"`. -/
theorem request_failure_surfacing_witness :
    makeLgtmPost (fun _ =>
        Except.ok ⟨"body", some (Json.obj [("status", Json.str "error")])⟩) =
      (Except.error (Exn.requestFailurePost (Json.obj [("status", Json.str "error")])), 1) :=
  ((request_failure_surfacing
      (fun _ => Except.ok ⟨"body", some (Json.obj [("status", Json.str "error")])⟩)).1
    ⟨"body", some (Json.obj [("status", Json.str "error")])⟩
    (Json.obj [("status", Json.str "error")]) "error" rfl rfl rfl (by decide)).1

/-! ## Form serialization of the project-selection update -/

theorem listSerialized_eq_quotedJoin : ∀ ids, listSerialized ids = quotedJoin ids
  | [] => rfl
  | [_] => rfl
  | x :: y :: rest => by
    have ih := listSerialized_eq_quotedJoin (y :: rest)
    simp only [listSerialized, List.map_cons, joinCommaSpace, quotedJoin] at *
    rw [ih]

/-- C7: `load_into_project_list` serializes the project identifiers into a
single `addedProjects` form value as a bracketed, comma-space-separated,
double-quoted string list (the empty list gives `[]`), sends
`removedProjects` always as `[]`, and the form has exactly the three
fields, each once — no repeated form fields. -/
theorem load_into_project_list_serialization (into_project : Int)
    (lgtm_project_ids : List String) :
    (loadIntoProjectListData into_project lgtm_project_ids).lookup "addedProjects" =
      some ("[" ++ quotedJoin lgtm_project_ids ++ "]")
    ∧ (loadIntoProjectListData into_project lgtm_project_ids).lookup "removedProjects" =
      some "[]"
    ∧ (loadIntoProjectListData into_project lgtm_project_ids).map Prod.fst =
      ["projectSelectionId", "addedProjects", "removedProjects"]
    ∧ (lgtm_project_ids = [] →
      (loadIntoProjectListData into_project lgtm_project_ids).lookup "addedProjects" =
        some "[]") := by
  refine ⟨?_, by rfl, by rfl, ?_⟩
  · simp [loadIntoProjectListData, List.lookup, listSerialized_eq_quotedJoin]
  · intro h
    subst h
    rfl

/-- Witness for C7 at the empty identifier list. -/
theorem load_into_project_list_serialization_witness :
    (loadIntoProjectListData 7 []).lookup "addedProjects" = some "[]" :=
  (load_into_project_list_serialization 7 []).2.2.2 rfl

/-! ## Bulk rebuild tolerance -/

theorem rebuildProjects_benign (outcome : SimpleProject → Except Exn Unit)
    (ps : List SimpleProject)
    (h : ∀ p, p.is_protoproject = true →
      outcome p = Except.ok () ∨
      ∃ e, outcome p = Except.error e ∧ e.isRequestFailure = true) :
    rebuildProjects outcome ps =
      Except.ok (ps.filter (fun p => p.is_protoproject),
        (ps.filter (fun p => p.is_protoproject)).filter (warnedFlag outcome)) := by
  induction ps with
  | nil => rfl
  | cons p rest ih =>
    by_cases hp : p.is_protoproject = true
    · rcases h p hp with hok | ⟨e, herr, hrf⟩
      · simp [rebuildProjects, hp, forceRebuildProject, hok, ih, List.filter_cons,
          warnedFlag]
      · simp [rebuildProjects, hp, forceRebuildProject, herr, hrf, ih,
          List.filter_cons, warnedFlag]
    · simp [rebuildProjects, hp, ih, List.filter_cons]

/-- C8: when every protoproject's rebuild either succeeds or raises an
`LGTMRequestException`, the bulk rebuild completes without propagating any
error: it attempts exactly the projects whose protoproject flag is true,
in iteration order (non-protoprojects are skipped), and the projects whose
rebuild raised are merely warned about — a failing project does not abort
the batch. -/
theorem force_rebuild_all_tolerates_failures
    (orgs : List (String × List SimpleProject))
    (outcome : SimpleProject → Except Exn Unit)
    (h : ∀ p, p.is_protoproject = true →
      outcome p = Except.ok () ∨
      ∃ e, outcome p = Except.error e ∧ e.isRequestFailure = true) :
    forceRebuildAllProtoProjects outcome orgs =
      Except.ok (allProtoProjects orgs,
        (allProtoProjects orgs).filter (warnedFlag outcome)) := by
  induction orgs with
  | nil => rfl
  | cons op rest ih =>
    obtain ⟨o, ps⟩ := op
    simp only [forceRebuildAllProtoProjects, rebuildProjects_benign outcome ps h, ih,
      allProtoProjects, List.map_cons, List.flatten_cons, List.filter_append]

/-- Witness for C8: one failing protoproject, one succeeding protoproject
and one non-protoproject; the batch completes, attempts exactly the two
protoprojects and warns about the failing one. -/
theorem force_rebuild_all_tolerates_failures_witness :
    forceRebuildAllProtoProjects
        (fun p => if p.display_name = "orgA/bad"
          then Except.error (Exn.requestFailureParse "boom") else Except.ok ())
        [("orgA", [⟨"orgA/bad", "k1", true⟩, ⟨"orgA/good", "k2", true⟩,
          ⟨"orgA/real", "k3", false⟩])] =
      Except.ok ([⟨"orgA/bad", "k1", true⟩, ⟨"orgA/good", "k2", true⟩],
        [⟨"orgA/bad", "k1", true⟩]) := by
  have h := force_rebuild_all_tolerates_failures
    [("orgA", [⟨"orgA/bad", "k1", true⟩, ⟨"orgA/good", "k2", true⟩,
      ⟨"orgA/real", "k3", false⟩])]
    (fun p => if p.display_name = "orgA/bad"
      then Except.error (Exn.requestFailureParse "boom") else Except.ok ())
    (by
      intro p hp
      by_cases hd : p.display_name = "orgA/bad"
      · exact Or.inr ⟨Exn.requestFailureParse "boom", by simp [hd], rfl⟩
      · exact Or.inl (by simp [hd]))
  rw [h]
  rfl

/-! ## The unimplemented list-name operation -/

/-- C10: `add_org_to_project_list_by_list_name` is a no-op: its body is
`pass`, so it issues no HTTP request and returns Python `None`, for every
organization and project-list name. -/
theorem add_org_to_project_list_by_list_name_noop (org project_name : String) :
    addOrgToProjectListByListName org project_name = ([], none) := rfl
